import Mathlib

/-!
Verification development for the WAC survey validator (`src/validator.py`).

The source is a single pandas pipeline: load a survey CSV and a token file,
repair tokens misplaced into a trailing unnamed column, drop duplicate-token
responses keeping the first occurrence, drop or list responses whose token is
missing from the token list, and emit either a cleaned CSV (delete-mode) or a
deletion list (list-mode).

The embedding below represents a DataFrame as a header (list of column names)
plus rows of string cells; Python string primitives used by the source
(`str.strip`, the substring test `in`) are modelled structurally over the
character list of the string so that every definition evaluates by kernel
reduction.
-/

/- ## Python string primitives -/

/-- Model of Python `str.strip()`: remove leading and trailing whitespace. -/
def strip (s : String) : String :=
  String.mk (((s.data.dropWhile Char.isWhitespace).reverse.dropWhile Char.isWhitespace).reverse)

/-- Model of the Python substring test `pat in s`. -/
def containsSub (s pat : String) : Bool :=
  (List.range (s.data.length + 1)).any (fun i => List.isPrefixOf pat.data (s.data.drop i))

/- ## Constants of the source (validator.py lines 15-20) -/

def ID_FIELD : String := "Respondent ID"

def WCA_TOKEN_FIELD : String := "wca_token"

def WCA_TOKEN_LEN : Nat := 64

/-- validator.py line 20: `MAX_COLUMNS = 400  # FIXME.` — the bound on the
`converters` dict handed to `pandas.read_csv` at line 39. -/
def MAX_COLUMNS : Nat := 400

/- ## Data model -/

/-- A loaded survey DataFrame: the header names in order and the rows of
string cells, in table order.  Row labels coincide with positions at load
time (`read_csv` assigns the default RangeIndex). -/
structure Table where
  cols : List String
  rows : List (List String)
deriving DecidableEq, Repr

/-- Position of the first occurrence of `a` in `xs` (length of `xs` when
absent) — how a column name selects a column of the frame. -/
def firstIdx : List String → String → Nat
  | [], _ => 0
  | x :: rest, a => if x = a then 0 else firstIdx rest a + 1

/-- Cell of a row under a column name: the value at the position of the name
in the header (`row[name]` on a pandas row), defaulting to the empty string
when the name is absent or the row is short. -/
def getCell (cols row : List String) (name : String) : String :=
  row.getD (firstIdx cols name) ""

/-- In-place cell write `row[name] = v` on a pandas row viewing the frame. -/
def setCell (cols row : List String) (name : String) (v : String) : List String :=
  row.set (firstIdx cols name) v

/-- The raw (untrimmed) token cell of row `i`. -/
def tokenAt (t : Table) (i : Nat) : String :=
  getCell t.cols (t.rows.getD i []) WCA_TOKEN_FIELD

/- ## Loader -/

/-- validator.py lines 50-52: `bad_token_column = df.columns[-1]`, reset to
`None` when `'Unnamed' not in bad_token_column`. -/
def detectBadColumn (cols : List String) : Option String :=
  match cols.getLast? with
  | none => none
  | some last => if containsSub last "Unnamed" then some last else none

/-- How a run of `Validator.run` leaves the process during the load phase. -/
inductive LoadOutcome where
  | ok : LoadOutcome
  | exitLogged : Nat → LoadOutcome
  | uncaught : String → LoadOutcome
deriving DecidableEq, Repr

/-- validator.py lines 37-47: `pandas.read_csv(input_path, ...)` sits in a
`try/except FileNotFoundError` that calls `logger.lerr` and `sysexit(1)`;
the token file `open(self.tokens_path, 'r')` at line 46 has no handler, so a
missing token file raises an uncaught `FileNotFoundError`. -/
def load_outcome (surveyExists tokensExists : Bool) : LoadOutcome :=
  if !surveyExists then LoadOutcome.exitLogged 1
  else if !tokensExists then LoadOutcome.uncaught "FileNotFoundError"
  else LoadOutcome.ok

/-- Model of pandas type inference on a column that got no converter
(documented `read_csv` behaviour, restricted here to all-digit fields): the
field is parsed as an integer and re-rendered, so leading zeros are lost.
Fields that are not all digits are kept verbatim by this model. -/
def inferField (s : String) : String :=
  if s.data ≠ [] ∧ s.data.all Char.isDigit then
    toString (s.data.foldl (fun acc c => acc * 10 + (c.toNat - Char.toNat (Char.ofNat 48))) 0)
  else s

/-- validator.py line 39: `read_csv` with `converters={i: str for i in
range(MAX_COLUMNS)}` — a column whose index is below `MAX_COLUMNS` keeps its
field verbatim as a string; a later column falls back to pandas inference. -/
def loadCell (colIdx : Nat) (field : String) : String :=
  if colIdx < MAX_COLUMNS then field else inferField field

/- ## Column Repair (validator.py fix_token_position, lines 163-170) -/

/-- validator.py `fix_token_position`: iterate `df.iloc[1:]` (row 0, the
artifact row, is skipped); where the trimmed primary token is empty and the
overflow cell has exactly `WCA_TOKEN_LEN` characters (untrimmed length),
write the trimmed overflow value into the primary token cell.  The write
`row[WCA_TOKEN_FIELD] = ...` lands in the frame: with every column loaded as
a string the frame is a single object block, and the rows yielded by
`iterrows` view that block. -/
def fix_token_position (t : Table) (badCol : String) : Table :=
  { cols := t.cols
    rows := t.rows.enum.map (fun p =>
      if p.1 = 0 then p.2
      else if strip (getCell t.cols p.2 WCA_TOKEN_FIELD) = "" ∧
          (getCell t.cols p.2 badCol).length = WCA_TOKEN_LEN then
        setCell t.cols p.2 WCA_TOKEN_FIELD (strip (getCell t.cols p.2 badCol))
      else p.2) }

/- ## Deduplicator (validator.py delete_older_duplicates, lines 152-161) -/

/-- Model of `df.duplicated(subset=[WCA_TOKEN_FIELD], keep='first')` at one
row: row `i` is marked iff some earlier row has the same raw token cell.
The whole frame participates — row 0 included, no `iloc[1:]` here. -/
def dupMarked (t : Table) (i : Nat) : Bool :=
  (List.range i).any (fun j => decide (tokenAt t j = tokenAt t i))

/-- Model of `df.drop_duplicates(subset=[WCA_TOKEN_FIELD], keep='first',
inplace=True)` (line 161): exactly the rows not marked by
`duplicated(keep='first')` survive, in table order. -/
def delete_older_duplicates (t : Table) : Table :=
  { cols := t.cols
    rows := (t.rows.enum.filter (fun p => !(dupMarked t p.1))).map Prod.snd }

/- ## Token Validator -/

/-- validator.py `is_valid` (lines 146-150): membership of the token in the
loaded token list. -/
def is_valid (tokenList : List String) (token : String) : Bool :=
  decide (token ∈ tokenList)

/-- The deletion test of the validation loops (lines 83 and 124):
`not is_valid(token) or not token` on the trimmed token cell. -/
def invalidRow (tokenList cols row : List String) : Bool :=
  !(is_valid tokenList (strip (getCell cols row WCA_TOKEN_FIELD))) ||
    decide (strip (getCell cols row WCA_TOKEN_FIELD) = "")

/- ## Delete-mode (validator.py run_delete, lines 60-102) -/

/-- The validation pass of `run_delete` (lines 79-86): the loop iterates the
snapshot `df.iloc[1:]` and `_delete` drops failing rows from the frame by
label, so row 0 is kept untouched and each later row survives iff the
deletion test is false. -/
def run_delete_rows (cols tokenList : List String) : List (List String) → List (List String)
  | [] => []
  | r0 :: rest => r0 :: rest.filter (fun r => !(invalidRow tokenList cols r))

/-- The Table of `run_delete` at the `to_csv` call (line 97): Column Repair
when an overflow column was detected, then the in-place
`drop_duplicates`, then the validation pass.  The
`df.drop([bad_token_column], axis=1)` at line 94 is called without
`inplace=True` and its result is discarded, so it does not change the frame
and the overflow column is still present here. -/
def run_delete_table (t : Table) (badCol : Option String) (tokenList : List String) : Table :=
  let t1 := match badCol with
    | some c => fix_token_position t c
    | none => t
  let t2 := delete_older_duplicates t1
  { cols := t2.cols, rows := run_delete_rows t2.cols tokenList t2.rows }

/- ## List-mode (validator.py run_list, lines 104-144) -/

/-- Line 115: `df[duplicates][ID_FIELD].to_list()` — the identifiers of the
mask-marked rows, in table order. -/
def dupIds (t : Table) : List String :=
  (t.rows.enum.filter (fun p => dupMarked t p.1)).map (fun p => getCell t.cols p.2 ID_FIELD)

/-- Lines 120-128: the identifiers appended by the validation loop — rows of
`df.iloc[1:]` failing the deletion test, in table order (list-mode never
drops rows, so the label `index` equals the position and
`df[ID_FIELD].iloc[index]` is the identifier of the current row). -/
def failIds (t : Table) (tokenList : List String) : List String :=
  (t.rows.enum.filter (fun p => decide (1 ≤ p.1) && invalidRow tokenList t.cols p.2)).map
    (fun p => getCell t.cols p.2 ID_FIELD)

/-- Line 138: `[elem for index, elem in enumerate(to_delete) if not elem in
to_delete[:index]]`. -/
def clean_list (xs : List String) : List String :=
  (xs.enum.filter (fun p => !(decide (p.2 ∈ xs.take p.1)))).map Prod.snd

/-- The lines written by `run_list` (lines 140-142), or the exception that
aborts it: line 133 evaluates `df[bad_token_column].empty` with no guard, so
when no overflow column was detected (`bad_token_column is None`) the
subscript `df[None]` raises `KeyError` after the two passes but before the
output file is written. -/
def run_list_output (t : Table) (badCol : Option String) (tokenList : List String) :
    Except String (List String) :=
  let t1 := match badCol with
    | some c => fix_token_position t c
    | none => t
  let toDelete := dupIds t1 ++ failIds t1 tokenList
  match badCol with
  | none => Except.error "KeyError: None"
  | some _ => Except.ok (clean_list toDelete)

/-- The in-memory Table after a list-mode run: the only write to the frame
reachable from `run_list` is `fix_token_position` (the duplicate pass is
called with `list_only=True` and only returns a mask; the validation loop
only appends to `to_delete`). -/
def run_list_table (t : Table) (badCol : Option String) : Table :=
  match badCol with
  | some c => fix_token_position t c
  | none => t

/- ## Concrete inputs used by the claim theorems -/

/-- A 64-character token. -/
def tok64 : String := "aaaaaaaaaaaaaaaaaaaaaaaaaaaaaaaaaaaaaaaaaaaaaaaaaaaaaaaaaaaaaaaa"

/-- A token list as loaded from a token file that ends in a newline:
`f.read().split('\n')` leaves a trailing empty entry. -/
def toksWithEmpty : List String := [tok64, ""]

/-- A loaded survey with a trailing unnamed overflow column.  Row 0 is the
artifact row; row 1 carries its token in the token column; row 2 has a
whitespace token and the token misplaced into the overflow column. -/
def tblOverflow : Table :=
  { cols := [ID_FIELD, WCA_TOKEN_FIELD, "Unnamed: 57"]
    rows := [["Respondent ID", "wca_token", ""],
             ["101", tok64, ""],
             ["102", " ", tok64]] }

/-- A loaded survey whose last column is the token column — no overflow
column for the Loader to detect. -/
def tblPlain : Table :=
  { cols := [ID_FIELD, WCA_TOKEN_FIELD]
    rows := [["Respondent ID", "wca_token"], ["201", tok64]] }

/-- A loaded survey with two data rows sharing the artifact row's (empty)
token cell, and an id that qualifies for deletion through both the
duplicate mask and the validation failure path. -/
def tblEmptyDup : Table :=
  { cols := [ID_FIELD, WCA_TOKEN_FIELD, "Unnamed: 3"]
    rows := [["Respondent ID", "", ""], ["501", "", ""], ["502", "", ""]] }

/-- A loaded survey with a duplicated valid token on rows 1 and 2. -/
def tblDup : Table :=
  { cols := [ID_FIELD, WCA_TOKEN_FIELD]
    rows := [["Respondent ID", "wca_token"],
             ["301", tok64],
             ["302", tok64],
             ["303", "short"]] }

/- ## Helper lemmas -/

theorem firstIdx_le_length (xs : List String) (a : String) : firstIdx xs a ≤ xs.length := by
  induction xs with
  | nil => simp [firstIdx]
  | cons x rest ih =>
    by_cases h : x = a <;> simp [firstIdx, h, Nat.succ_le_succ ih]

theorem firstIdx_of_not_mem {xs : List String} {a : String} (h : a ∉ xs) :
    firstIdx xs a = xs.length := by
  induction xs with
  | nil => rfl
  | cons x rest ih =>
    simp only [List.mem_cons, not_or] at h
    simp [firstIdx, Ne.symm h.1, ih h.2]

theorem firstIdx_lt_length {xs : List String} {a : String} (h : a ∈ xs) :
    firstIdx xs a < xs.length := by
  induction xs with
  | nil => cases h
  | cons x rest ih =>
    by_cases hx : x = a
    · simp [firstIdx, hx]
    · have ha : a ∈ rest := by
        rcases List.mem_cons.1 h with h1 | h2
        · exact absurd h1.symm hx
        · exact h2
      simp [firstIdx, hx, Nat.succ_lt_succ (ih ha)]

theorem firstIdx_inj {xs : List String} {a b : String} (ha : a ∈ xs) (hb : b ∈ xs)
    (h : firstIdx xs a = firstIdx xs b) : a = b := by
  induction xs with
  | nil => cases ha
  | cons x rest ih =>
    by_cases hxa : x = a <;> by_cases hxb : x = b
    · rw [← hxa, hxb]
    · simp only [firstIdx, if_pos hxa, if_neg hxb] at h
      omega
    · simp only [firstIdx, if_neg hxa, if_pos hxb] at h
      omega
    · simp only [firstIdx, if_neg hxa, if_neg hxb, Nat.add_right_cancel_iff] at h
      have ha' : a ∈ rest := by
        rcases List.mem_cons.1 ha with h1 | h2
        · exact absurd h1.symm hxa
        · exact h2
      have hb' : b ∈ rest := by
        rcases List.mem_cons.1 hb with h1 | h2
        · exact absurd h1.symm hxb
        · exact h2
      exact ih ha' hb' h

theorem enum_map_getD {α β : Type} (l : List α) (f : Nat × α → β) (i : Nat)
    (d : β) (e : α) (hi : i < l.length) :
    (l.enum.map f).getD i d = f (i, l.getD i e) := by
  simp [List.getD_eq_getElem?_getD, List.getElem?_map, List.getElem?_enum,
    List.getElem?_eq_getElem hi]

theorem enum_map_getD_of_ge {α β : Type} (l : List α) (f : Nat × α → β) (i : Nat)
    (d : β) (hi : l.length ≤ i) :
    (l.enum.map f).getD i d = d := by
  have : (l.enum.map f)[i]? = none := by
    rw [List.getElem?_eq_none]
    simpa using hi
  simp [List.getD_eq_getElem?_getD, this]

/- ## Claim theorems -/

/-- Claim C1 (evaluation of the code at the failing input): in delete-mode on
an input with a trailing unnamed overflow column, the Table handed to
`to_csv` still has the full input schema — the overflow column was not
dropped, because `df.drop([bad_token_column], axis=1)` at line 94 is called
without `inplace=True` and its result is discarded. -/
theorem run_delete_keeps_overflow_column :
    detectBadColumn tblOverflow.cols = some "Unnamed: 57" ∧
    (run_delete_table tblOverflow (detectBadColumn tblOverflow.cols) toksWithEmpty).cols =
      [ID_FIELD, WCA_TOKEN_FIELD, "Unnamed: 57"] :=
  ⟨rfl, rfl⟩

/-- Claim C3 (evaluation of the code at the failing input): on an input whose
last column name does not contain 'Unnamed', the Loader detects no overflow
column; delete-mode completes, but list-mode aborts with the KeyError raised
by the unguarded `df[bad_token_column]` at line 133. -/
theorem run_list_no_overflow_keyerror :
    detectBadColumn tblPlain.cols = none ∧
    run_list_output tblPlain (detectBadColumn tblPlain.cols) toksWithEmpty =
      Except.error "KeyError: None" ∧
    (run_delete_table tblPlain (detectBadColumn tblPlain.cols) toksWithEmpty).rows =
      [["Respondent ID", "wca_token"], ["201", tok64]] :=
  ⟨rfl, rfl, by decide⟩

/-- Claim C7 counterexample: with the survey file present and the token file
missing, the run does not abort through the fatal error-level log call — the
unguarded `open` at line 46 raises an uncaught FileNotFoundError — so the
two inputs are not handled symmetrically. -/
theorem token_file_abort_not_via_log :
    load_outcome true false ≠ LoadOutcome.exitLogged 1 ∧
    load_outcome true false = LoadOutcome.uncaught "FileNotFoundError" :=
  ⟨by decide, rfl⟩

/-- Claim C7 amended: a missing survey file aborts the run at load via the
fatal error-level log call with exit status 1 (also when both files are
missing, since the survey is opened first); a missing token file alone
aborts at load via an uncaught FileNotFoundError — fatal and before any
output is written, but not via the log call; with both inputs present the
load succeeds. -/
theorem load_abort_modes :
    load_outcome false true = LoadOutcome.exitLogged 1 ∧
    load_outcome false false = LoadOutcome.exitLogged 1 ∧
    load_outcome true false = LoadOutcome.uncaught "FileNotFoundError" ∧
    load_outcome true true = LoadOutcome.ok :=
  ⟨rfl, rfl, rfl, rfl⟩

/-- Claim C9 (evaluation of the code at the failing input): the `converters`
dict of line 39 covers only column indices below `MAX_COLUMNS = 400`
(marked `# FIXME.`), so a cell in column index 400 falls back to pandas
numeric inference: the all-digit field "007" is re-rendered as "7" there,
while the same field in any converted column stays verbatim. -/
theorem loadCell_beyond_max_columns :
    loadCell 0 "007" = "007" ∧ loadCell 399 "007" = "007" ∧
    loadCell MAX_COLUMNS "007" = "7" ∧ loadCell MAX_COLUMNS "007" ≠ "007" :=
  ⟨rfl, by decide, by decide, by decide⟩

/-- Claim C8 counterexample: a list-mode run on `tblOverflow` mutates the
in-memory Table — Column Repair writes the trimmed overflow token into the
primary token cell of row 2, so the Table after the run differs from the
Table produced by the Loader. -/
theorem list_mode_mutates_table :
    run_list_table tblOverflow (detectBadColumn tblOverflow.cols) ≠ tblOverflow := by
  decide

/-- Claim C2: for a record after the artifact row whose primary token is
empty after trimming and whose overflow cell has exactly `WCA_TOKEN_LEN`
characters, Column Repair leaves the trimmed overflow value in that record's
primary token cell, so the Deduplicator and Validator stages (which run on
the repaired Table) see the corrected token.  The last hypothesis is
well-formedness: the row really has a cell in the token column. -/
theorem fix_token_position_repairs (t : Table) (c : String) (i : Nat)
    (h1 : 1 ≤ i) (hi : i < t.rows.length)
    (hempty : strip (getCell t.cols (t.rows.getD i []) WCA_TOKEN_FIELD) = "")
    (hlen : (getCell t.cols (t.rows.getD i []) c).length = WCA_TOKEN_LEN)
    (hwf : firstIdx t.cols WCA_TOKEN_FIELD < (t.rows.getD i []).length) :
    getCell t.cols ((fix_token_position t c).rows.getD i []) WCA_TOKEN_FIELD =
      strip (getCell t.cols (t.rows.getD i []) c) := by
  have hrow : (fix_token_position t c).rows.getD i [] =
      setCell t.cols (t.rows.getD i []) WCA_TOKEN_FIELD
        (strip (getCell t.cols (t.rows.getD i []) c)) := by
    show (t.rows.enum.map _).getD i [] = _
    rw [enum_map_getD t.rows _ i [] [] hi]
    have hne : ¬ (i = 0) := by omega
    simp only [if_neg hne, if_pos (And.intro hempty hlen)]
  rw [hrow]
  unfold getCell setCell
  rw [List.getD_eq_getElem?_getD, List.getElem?_set_self hwf]
  rfl

/-- Claim C2 witness: row 2 of `tblOverflow` (whitespace-only token cell,
64-character overflow cell) is repaired to the trimmed overflow value. -/
theorem fix_token_position_repairs_witness :
    getCell tblOverflow.cols
        ((fix_token_position tblOverflow "Unnamed: 57").rows.getD 2 []) WCA_TOKEN_FIELD =
      strip (getCell tblOverflow.cols (tblOverflow.rows.getD 2 []) "Unnamed: 57") :=
  fix_token_position_repairs tblOverflow "Unnamed: 57" 2 (by decide) (by decide)
    (by decide) (by decide) (by decide)

/-- Claim C4: for records sharing the same non-empty token value, with `i`
the first-appearing member of the group and `j` any later member, the
duplicate mask (list-mode) marks `j` and not `i`, and the in-place
`drop_duplicates` (delete-mode) retains row `i`; first appearance in table
order is the only criterion used. -/
theorem dedup_keeps_first_occurrence (t : Table) (i j : Nat) (hij : i < j)
    (hj : j < t.rows.length) (hne : tokenAt t i ≠ "")
    (heq : tokenAt t i = tokenAt t j)
    (hfirst : ∀ k, k < i → tokenAt t k ≠ tokenAt t i) :
    dupMarked t j = true ∧ dupMarked t i = false ∧
    t.rows.getD i [] ∈ (delete_older_duplicates t).rows := by
  have hmj : dupMarked t j = true := by
    unfold dupMarked
    rw [List.any_eq_true]
    exact ⟨i, List.mem_range.2 hij, by simpa using heq⟩
  have hmi : dupMarked t i = false := by
    unfold dupMarked
    rw [List.any_eq_false]
    intro k hk
    simp only [decide_eq_true_eq]
    exact hfirst k (List.mem_range.1 hk)
  refine ⟨hmj, hmi, ?_⟩
  show t.rows.getD i [] ∈ (t.rows.enum.filter _).map Prod.snd
  refine List.mem_map.2 ⟨(i, t.rows.getD i []), ?_, rfl⟩
  refine List.mem_filter.2 ⟨?_, by simp [hmi]⟩
  rw [List.mem_enum_iff_getElem?]
  have hi : i < t.rows.length := Nat.lt_trans hij hj
  simp [List.getElem?_eq_getElem hi, List.getD_eq_getElem?_getD]

/-- Claim C4 witness: in `tblDup`, rows 1 and 2 share the non-empty token
`tok64`; row 2 is marked, row 1 is not and survives `drop_duplicates`. -/
theorem dedup_keeps_first_occurrence_witness :
    dupMarked tblDup 2 = true ∧ dupMarked tblDup 1 = false ∧
    tblDup.rows.getD 1 [] ∈ (delete_older_duplicates tblDup).rows :=
  dedup_keeps_first_occurrence tblDup 1 2 (by decide) (by decide) (by decide)
    (by decide) (by decide)

/-- Claim C5: a record after the artifact row whose token is empty after
trimming fails the validation test for every token list — including one
containing the empty string, as a token file with an empty line produces —
so delete-mode's validation pass removes it and list-mode appends its
identifier to the running deletion list. -/
theorem empty_token_fails_validation (t : Table) (toks : List String) (i : Nat)
    (h1 : 1 ≤ i) (hi : i < t.rows.length)
    (hempty : strip (getCell t.cols (t.rows.getD i []) WCA_TOKEN_FIELD) = "") :
    invalidRow toks t.cols (t.rows.getD i []) = true ∧
    getCell t.cols (t.rows.getD i []) ID_FIELD ∈ failIds t toks ∧
    t.rows.getD i [] ∉ (t.rows.drop 1).filter (fun r => !(invalidRow toks t.cols r)) ∧
    (run_delete_rows t.cols toks t.rows).drop 1 =
      (t.rows.drop 1).filter (fun r => !(invalidRow toks t.cols r)) := by
  have hinv : invalidRow toks t.cols (t.rows.getD i []) = true := by
    unfold invalidRow
    rw [hempty]
    simp
  refine ⟨hinv, ?_, ?_, ?_⟩
  · unfold failIds
    refine List.mem_map.2 ⟨(i, t.rows.getD i []), ?_, rfl⟩
    refine List.mem_filter.2 ⟨?_, ?_⟩
    · rw [List.mem_enum_iff_getElem?]
      simp [List.getElem?_eq_getElem hi, List.getD_eq_getElem?_getD]
    · simp only [Bool.and_eq_true, decide_eq_true_eq]
      exact ⟨h1, hinv⟩
  · intro hmem
    have hkeep := (List.mem_filter.1 hmem).2
    rw [hinv] at hkeep
    cases hkeep
  · rcases t with ⟨cols, rows⟩
    cases rows with
    | nil => rfl
    | cons r0 rest => rfl

/-- Claim C5 witness: row 2 of `tblOverflow` has a whitespace-only token; it
fails validation against `toksWithEmpty` even though that token list
contains the empty string. -/
theorem empty_token_fails_validation_witness :
    invalidRow toksWithEmpty tblOverflow.cols (tblOverflow.rows.getD 2 []) = true ∧
    getCell tblOverflow.cols (tblOverflow.rows.getD 2 []) ID_FIELD ∈
      failIds tblOverflow toksWithEmpty ∧
    tblOverflow.rows.getD 2 [] ∉
      (tblOverflow.rows.drop 1).filter
        (fun r => !(invalidRow toksWithEmpty tblOverflow.cols r)) ∧
    (run_delete_rows tblOverflow.cols toksWithEmpty tblOverflow.rows).drop 1 =
      (tblOverflow.rows.drop 1).filter
        (fun r => !(invalidRow toksWithEmpty tblOverflow.cols r)) :=
  empty_token_fails_validation tblOverflow toksWithEmpty 2 (by decide) (by decide) (by decide)

/-- Claim C10: the Deduplicator does not skip the artifact row: row 0 joins
the duplicate groups, is never marked itself (so `drop_duplicates` always
keeps it as the first row of the result), and any later row whose raw token
cell equals row 0's — including the case where both are empty — is marked as
a duplicate and hence dropped in delete-mode. -/
theorem dedup_covers_artifact_row (t : Table) (i : Nat) (h0 : 0 < i)
    (hi : i < t.rows.length) (heq : tokenAt t i = tokenAt t 0) :
    dupMarked t 0 = false ∧ dupMarked t i = true ∧
    (delete_older_duplicates t).rows.head? = t.rows.head? := by
  refine ⟨rfl, ?_, ?_⟩
  · unfold dupMarked
    rw [List.any_eq_true]
    exact ⟨0, List.mem_range.2 h0, by simpa using heq.symm⟩
  · rcases t with ⟨cols, rows⟩
    cases rows with
    | nil => rfl
    | cons r0 rest =>
      show ((((r0 :: rest).enum.filter _).map Prod.snd)).head? = _
      rw [List.enum, List.enumFrom_cons, List.filter_cons_of_pos rfl]
      rfl

/-- Claim C10 witness: in `tblEmptyDup` the artifact row's token cell and row
1's token cell are both empty; the artifact row is unmarked and kept first,
row 1 is marked as a duplicate. -/
theorem dedup_covers_artifact_row_witness :
    dupMarked tblEmptyDup 0 = false ∧ dupMarked tblEmptyDup 1 = true ∧
    (delete_older_duplicates tblEmptyDup).rows.head? = tblEmptyDup.rows.head? :=
  dedup_covers_artifact_row tblEmptyDup 1 (by decide) (by decide) (by decide)

theorem getCell_setCell_ne (cols row : List String) (hw : row.length = cols.length)
    (name tname v : String) (hne : name ≠ tname) :
    getCell cols (setCell cols row tname v) name = getCell cols row name := by
  unfold getCell setCell
  by_cases hn : tname ∈ cols
  · by_cases hm : name ∈ cols
    · have hidx : firstIdx cols name ≠ firstIdx cols tname :=
        fun h => hne (firstIdx_inj hm hn h)
      rw [List.getD_eq_getElem?_getD, List.getD_eq_getElem?_getD,
        List.getElem?_set_ne (Ne.symm hidx)]
    · have h1 : firstIdx cols name = cols.length := firstIdx_of_not_mem hm
      have e1 : (row.set (firstIdx cols tname) v)[firstIdx cols name]? = none := by
        rw [List.getElem?_eq_none]
        rw [List.length_set, hw, h1]
      have e2 : row[firstIdx cols name]? = none := by
        rw [List.getElem?_eq_none]
        rw [hw, h1]
      rw [List.getD_eq_getElem?_getD, List.getD_eq_getElem?_getD, e1, e2]
  · have h1 : firstIdx cols tname = cols.length := firstIdx_of_not_mem hn
    rw [List.set_eq_of_length_le]
    rw [hw, h1]

/-- Claim C8 amended: a list-mode run never removes or reorders records and
never touches any field other than the primary token field — the columns,
the number and order of rows, and every cell outside the token column are
those of the loaded Table — and a row is changed at all only when Column
Repair applies to it (it is not the artifact row, its trimmed token is
empty, and its overflow cell has exactly `WCA_TOKEN_LEN` characters).  The
hypothesis is well-formedness of the loaded frame: every row has exactly one
cell per column. -/
theorem run_list_table_frame (t : Table) (b : Option String)
    (hw : ∀ r ∈ t.rows, r.length = t.cols.length) :
    (run_list_table t b).cols = t.cols ∧
    (run_list_table t b).rows.length = t.rows.length ∧
    (∀ i name, name ≠ WCA_TOKEN_FIELD →
      getCell t.cols ((run_list_table t b).rows.getD i []) name =
        getCell t.cols (t.rows.getD i []) name) ∧
    (∀ i, (i = 0 ∨ ∀ c, b = some c →
        ¬(strip (getCell t.cols (t.rows.getD i []) WCA_TOKEN_FIELD) = "" ∧
          (getCell t.cols (t.rows.getD i []) c).length = WCA_TOKEN_LEN)) →
      (run_list_table t b).rows.getD i [] = t.rows.getD i []) := by
  cases b with
  | none => exact ⟨rfl, rfl, fun _ _ _ => rfl, fun _ _ => rfl⟩
  | some c =>
    have hcols : (run_list_table t (some c)).cols = t.cols := rfl
    have hlen : (run_list_table t (some c)).rows.length = t.rows.length := by
      show (t.rows.enum.map _).length = _
      rw [List.length_map, List.enum_length]
    have hrow : ∀ i, i < t.rows.length →
        (run_list_table t (some c)).rows.getD i [] =
          (if i = 0 then t.rows.getD i []
           else if strip (getCell t.cols (t.rows.getD i []) WCA_TOKEN_FIELD) = "" ∧
              (getCell t.cols (t.rows.getD i []) c).length = WCA_TOKEN_LEN then
            setCell t.cols (t.rows.getD i []) WCA_TOKEN_FIELD
              (strip (getCell t.cols (t.rows.getD i []) c))
          else t.rows.getD i []) := by
      intro i hi
      show (t.rows.enum.map _).getD i [] = _
      rw [enum_map_getD t.rows _ i [] [] hi]
    have hrow_ge : ∀ i, t.rows.length ≤ i →
        (run_list_table t (some c)).rows.getD i [] = t.rows.getD i [] := by
      intro i hi
      show (t.rows.enum.map _).getD i [] = _
      rw [enum_map_getD_of_ge t.rows _ i [] hi, List.getD_eq_getElem?_getD,
        List.getElem?_eq_none hi]
      rfl
    refine ⟨hcols, hlen, ?_, ?_⟩
    · intro i name hname
      by_cases hi : i < t.rows.length
      · rw [hrow i hi]
        by_cases h0 : i = 0
        · rw [if_pos h0]
        · rw [if_neg h0]
          by_cases hcond : strip (getCell t.cols (t.rows.getD i []) WCA_TOKEN_FIELD) = "" ∧
              (getCell t.cols (t.rows.getD i []) c).length = WCA_TOKEN_LEN
          · rw [if_pos hcond]
            have hmem : t.rows.getD i [] ∈ t.rows := by
              rw [List.getD_eq_getElem?_getD, List.getElem?_eq_getElem hi]
              exact List.getElem_mem hi
            exact getCell_setCell_ne t.cols (t.rows.getD i [])
              (hw (t.rows.getD i []) hmem) name WCA_TOKEN_FIELD _ hname
          · rw [if_neg hcond]
      · rw [hrow_ge i (Nat.le_of_not_lt hi)]
    · intro i hskip
      by_cases hi : i < t.rows.length
      · rw [hrow i hi]
        rcases hskip with h0 | hno
        · rw [if_pos h0]
        · by_cases h0 : i = 0
          · rw [if_pos h0]
          · rw [if_neg h0, if_neg (hno c rfl)]
      · exact hrow_ge i (Nat.le_of_not_lt hi)

/-- Claim C8 amended, witness: the frame property evaluated on `tblDup`
in a list-mode run with no overflow column detected. -/
theorem run_list_table_frame_witness :
    (run_list_table tblDup (detectBadColumn tblDup.cols)).cols = tblDup.cols ∧
    (run_list_table tblDup (detectBadColumn tblDup.cols)).rows.length =
      tblDup.rows.length ∧
    (∀ i name, name ≠ WCA_TOKEN_FIELD →
      getCell tblDup.cols
          ((run_list_table tblDup (detectBadColumn tblDup.cols)).rows.getD i []) name =
        getCell tblDup.cols (tblDup.rows.getD i []) name) ∧
    (∀ i, (i = 0 ∨ ∀ c, detectBadColumn tblDup.cols = some c →
        ¬(strip (getCell tblDup.cols (tblDup.rows.getD i []) WCA_TOKEN_FIELD) = "" ∧
          (getCell tblDup.cols (tblDup.rows.getD i []) c).length = WCA_TOKEN_LEN)) →
      (run_list_table tblDup (detectBadColumn tblDup.cols)).rows.getD i [] =
        tblDup.rows.getD i []) :=
  run_list_table_frame tblDup (detectBadColumn tblDup.cols) (by decide)

theorem firstIdx_of_getElem {xs : List String} {a : String} {i : Nat}
    (hget : xs[i]? = some a) (htake : a ∉ xs.take i) : firstIdx xs a = i := by
  induction xs generalizing i with
  | nil => simp at hget
  | cons x rest ih =>
    cases i with
    | zero =>
      have hx : x = a := by simpa using hget
      simp [firstIdx, hx]
    | succ n =>
      have hx : ¬(a = x) ∧ a ∉ rest.take n := by
        simpa [List.take_succ_cons, not_or] using htake
      have hxa : ¬(x = a) := fun h => hx.1 h.symm
      have hrec : firstIdx rest a = n := ih (by simpa using hget) hx.2
      simp [firstIdx, if_neg hxa, hrec]

theorem not_mem_take_firstIdx (xs : List String) (a : String) :
    a ∉ xs.take (firstIdx xs a) := by
  induction xs with
  | nil => simp
  | cons x rest ih =>
    by_cases hx : x = a
    · simp [firstIdx, hx]
    · simp only [firstIdx, if_neg hx, List.take_succ_cons, List.mem_cons, not_or]
      exact ⟨fun h => hx h.symm, ih⟩

theorem getElem_firstIdx {xs : List String} {a : String} (h : a ∈ xs) :
    xs[firstIdx xs a]? = some a := by
  induction xs with
  | nil => cases h
  | cons x rest ih =>
    by_cases hx : x = a
    · simp [firstIdx, hx]
    · have ha : a ∈ rest := by
        rcases List.mem_cons.1 h with h1 | h2
        · exact absurd h1.symm hx
        · exact h2
      simp only [firstIdx, if_neg hx, List.getElem?_cons_succ]
      exact ih ha

theorem clean_list_mem_facts {xs : List String} {p : Nat × String}
    (hp : p ∈ xs.enum.filter (fun q => !(decide (q.2 ∈ xs.take q.1)))) :
    xs[p.1]? = some p.2 ∧ p.2 ∉ xs.take p.1 ∧ firstIdx xs p.2 = p.1 := by
  have h1 := (List.mem_filter.1 hp).1
  have h2 := (List.mem_filter.1 hp).2
  have hg : xs[p.1]? = some p.2 := List.mem_enum_iff_getElem?.1 h1
  have hnt : p.2 ∉ xs.take p.1 := by simpa using h2
  exact ⟨hg, hnt, firstIdx_of_getElem hg hnt⟩

theorem enum_pairwise_fst_lt {α : Type} (l : List α) :
    l.enum.Pairwise (fun p q => p.1 < q.1) := by
  have h := List.pairwise_lt_range l.length
  rw [← List.enum_map_fst l] at h
  exact List.pairwise_map.1 h

theorem clean_list_nodup (xs : List String) : (clean_list xs).Nodup := by
  unfold clean_list
  have hpw : (xs.enum.filter (fun q => !(decide (q.2 ∈ xs.take q.1)))).Pairwise
      (fun p q => p.1 < q.1) :=
    List.Pairwise.sublist (List.filter_sublist _) (enum_pairwise_fst_lt xs)
  have hne : (xs.enum.filter (fun q => !(decide (q.2 ∈ xs.take q.1)))).Pairwise
      (fun p q => p.2 ≠ q.2) := by
    refine List.Pairwise.imp_of_mem ?_ hpw
    intro p q hp hq hlt heq
    obtain ⟨hgp, _, _⟩ := clean_list_mem_facts hp
    obtain ⟨_, hnq, _⟩ := clean_list_mem_facts hq
    apply hnq
    have hmem : (xs.take q.1)[p.1]? = some q.2 := by
      rw [List.getElem?_take_of_lt hlt, hgp, heq]
    exact List.getElem?_mem hmem
  exact List.Pairwise.map Prod.snd (fun a b h => h) hne

theorem clean_list_mem (xs : List String) (a : String) :
    a ∈ clean_list xs ↔ a ∈ xs := by
  unfold clean_list
  constructor
  · intro h
    obtain ⟨p, hp, hsnd⟩ := List.mem_map.1 h
    rw [← hsnd]
    exact List.snd_mem_of_mem_enum (List.mem_filter.1 hp).1
  · intro h
    refine List.mem_map.2 ⟨(firstIdx xs a, a), ?_, rfl⟩
    refine List.mem_filter.2 ⟨?_, ?_⟩
    · exact List.mem_enum_iff_getElem?.2 (getElem_firstIdx h)
    · simpa using not_mem_take_firstIdx xs a

theorem clean_list_pairwise_firstIdx (xs : List String) :
    (clean_list xs).Pairwise (fun a b => firstIdx xs a < firstIdx xs b) := by
  unfold clean_list
  have hpw : (xs.enum.filter (fun q => !(decide (q.2 ∈ xs.take q.1)))).Pairwise
      (fun p q => p.1 < q.1) :=
    List.Pairwise.sublist (List.filter_sublist _) (enum_pairwise_fst_lt xs)
  have h2 : (xs.enum.filter (fun q => !(decide (q.2 ∈ xs.take q.1)))).Pairwise
      (fun p q => firstIdx xs p.2 < firstIdx xs q.2) := by
    refine List.Pairwise.imp_of_mem ?_ hpw
    intro p q hp hq hlt
    rw [(clean_list_mem_facts hp).2.2, (clean_list_mem_facts hq).2.2]
    exact hlt
  exact List.Pairwise.map Prod.snd (fun a b h => h) h2

/-- Claim C6: whenever a list-mode run completes, the written deletion list
has no duplicate identifiers; it contains exactly the identifiers produced
by the duplicate-mask pass followed by the validation pass (where one
identifier may occur twice, e.g. for an empty-token record), and it lists
them in first-occurrence order of that combined sequence. -/
theorem deletion_list_nodup_first_occurrence (t : Table) (c : String)
    (toks : List String) (l : List String)
    (h : run_list_output t (some c) toks = Except.ok l) :
    l.Nodup ∧
    (∀ a, a ∈ l ↔
      a ∈ dupIds (fix_token_position t c) ++ failIds (fix_token_position t c) toks) ∧
    l.Pairwise (fun a b =>
      firstIdx (dupIds (fix_token_position t c) ++
          failIds (fix_token_position t c) toks) a <
        firstIdx (dupIds (fix_token_position t c) ++
          failIds (fix_token_position t c) toks) b) := by
  have h' : Except.ok (ε := String)
      (clean_list (dupIds (fix_token_position t c) ++
        failIds (fix_token_position t c) toks)) = Except.ok l := by
    rw [← h]
    rfl
  have hl : l = clean_list (dupIds (fix_token_position t c) ++
      failIds (fix_token_position t c) toks) := (Except.ok.inj h').symm
  subst hl
  exact ⟨clean_list_nodup _, fun a => clean_list_mem _ a, clean_list_pairwise_firstIdx _⟩

/-- Claim C6 witness: in `tblEmptyDup` the identifier "502" qualifies both
through the duplicate mask and through validation failure, yet the written
deletion list is duplicate-free. -/
theorem deletion_list_nodup_first_occurrence_witness :
    (clean_list (dupIds (fix_token_position tblEmptyDup "Unnamed: 3") ++
        failIds (fix_token_position tblEmptyDup "Unnamed: 3") toksWithEmpty)).Nodup :=
  (deletion_list_nodup_first_occurrence tblEmptyDup "Unnamed: 3" toksWithEmpty
    (clean_list (dupIds (fix_token_position tblEmptyDup "Unnamed: 3") ++
      failIds (fix_token_position tblEmptyDup "Unnamed: 3") toksWithEmpty)) rfl).1
